import Mathlib

/-!
Shallow embedding of the tokio adapter for Unix seqpacket sockets
(`src/tokio/seqpacket.rs` of the `uds` crate).

The adapter bridges a non-blocking socket primitive to a readiness-driven
asynchronous model.  The non-blocking layer (kernel syscalls) and the
reactor (readiness registration) are external collaborators; they are
modelled as inputs: each poll step receives the registration state the
reactor currently reports and the outcome the kernel call would produce
on this attempt.  The poll functions themselves are translated line by
line from the source; the `...FromEnv` functions model driving a
`poll_fn(...).await` loop against a finite trace of such environments
(`none` meaning the operation is still suspended when the trace ends).
-/

namespace Uds

/-- Error kinds of the OS error domain that the adapter inspects or that the
spec names (`std::io::ErrorKind` in the source). -/
inductive ErrorKind where
  | wouldBlock
  | notFound
  | connectionRefused
  | brokenPipe
  | permissionDenied
  | other
deriving DecidableEq, Repr

/-- An OS-level I/O error: its kind plus an opaque payload distinguishing
errors of the same kind (models `std::io::Error`). -/
structure IOError where
  kind : ErrorKind
  code : Nat
deriving DecidableEq, Repr

/-- Result of a fallible operation (models `std::io::Result`). -/
abbrev IOResult (α : Type) := Except IOError α

/-- Outcome of polling a future once (models `std::task::Poll`). -/
inductive Poll (α : Type) where
  | ready : α → Poll α
  | pending : Poll α
deriving DecidableEq, Repr

/-- The readiness registration the reactor holds for one descriptor: whether
the read and the write direction are currently marked ready (models the
state behind `PollEvented`'s `poll_read_ready` / `poll_write_ready`). -/
structure Reg where
  readReady : Bool
  writeReady : Bool
deriving DecidableEq, Repr

/-- `clear_read_ready`: drop the read-readiness mark. -/
def Reg.clearRead (r : Reg) : Reg :=
  { r with readReady := false }

/-- `clear_write_ready`: drop the write-readiness mark. -/
def Reg.clearWrite (r : Reg) : Reg :=
  { r with writeReady := false }

/-- The tokio-side connection object: it wraps exactly one non-blocking
handle (identified opaquely by a natural number) together with its single
readiness registration (`struct UnixSeqpacketConn { io: PollEvented<...> }`). -/
structure UnixSeqpacketConn where
  nb : Nat
deriving DecidableEq, Repr

/-- `UnixSeqpacketConn::from_nonblocking`: wrap a non-blocking handle into a
tokio connection by registering it with the reactor (`PollEvented::new`);
`regResult` is the outcome of that registration.  On registration failure the
error is returned and the handle is dropped (it was moved into the failed
constructor). -/
def from_nonblocking (conn : Nat) (regResult : IOResult Unit) :
    IOResult UnixSeqpacketConn :=
  match regResult with
  | .error e => .error e
  | .ok _ => .ok ⟨conn⟩

/-- `UnixSeqpacketConn::poll_recv_priv`: wait for read readiness, attempt the
non-blocking `recv` (whose kernel outcome `recvResult` carries the byte count
and the truncation flag), absorb would-block by clearing read readiness and
pending, propagate other errors, and surface the byte count on success. -/
def poll_recv_priv (reg : Reg) (recvResult : IOResult (Nat × Bool)) :
    Poll (IOResult Nat) × Reg :=
  if reg.readReady = false then (.pending, reg)
  else
    match recvResult with
    | .error e =>
        if e.kind = .wouldBlock then (.pending, reg.clearRead)
        else (.ready (.error e), reg)
    | .ok (x, _truncated) => (.ready (.ok x), reg)

/-- `UnixSeqpacketConn::poll_send_priv`: wait for write readiness, attempt the
non-blocking `send` on the caller's buffer (`sendImpl` models the kernel send
as a function of the buffer passed to it), absorb would-block by clearing
write readiness and pending, and return any other outcome as is. -/
def poll_send_priv (reg : Reg) (buf : List Nat)
    (sendImpl : List Nat → IOResult Nat) : Poll (IOResult Nat) × Reg :=
  if reg.writeReady = false then (.pending, reg)
  else
    match sendImpl buf with
    | .error e =>
        if e.kind = .wouldBlock then (.pending, reg.clearWrite)
        else (.ready (.error e), reg)
    | .ok n => (.ready (.ok n), reg)

/-- `UnixSeqpacketListener::poll_accept_nonblocking`: wait for read readiness,
attempt the non-blocking `accept_unix_addr` (kernel outcome: accepted handle
and peer address, both opaque), absorb would-block by clearing read readiness
and pending, propagate other errors. -/
def poll_accept_nonblocking (reg : Reg) (acceptResult : IOResult (Nat × Nat)) :
    Poll (IOResult (Nat × Nat)) × Reg :=
  if reg.readReady = false then (.pending, reg)
  else
    match acceptResult with
    | .ok (socket, addr) => (.ready (.ok (socket, addr)), reg)
    | .error e =>
        if e.kind = .wouldBlock then (.pending, reg.clearRead)
        else (.ready (.error e), reg)

/-- `UnixSeqpacketListener::poll_accept`: dequeue a connection via
`poll_accept_nonblocking`, then wrap it with `from_nonblocking` (whose
registration outcome is `regResult`); a wrapping failure is returned as the
accept's error and the dequeued handle is not returned. -/
def poll_accept (reg : Reg) (acceptResult : IOResult (Nat × Nat))
    (regResult : IOResult Unit) :
    Poll (IOResult (UnixSeqpacketConn × Nat)) × Reg :=
  match poll_accept_nonblocking reg acceptResult with
  | (.pending, reg2) => (.pending, reg2)
  | (.ready (.error e), reg2) => (.ready (.error e), reg2)
  | (.ready (.ok (sock, addr)), reg2) =>
      match from_nonblocking sock regResult with
      | .error e => (.ready (.error e), reg2)
      | .ok c => (.ready (.ok (c, addr)), reg2)

/-- Environment of one poll step of `recv`: the registration state the reactor
reports at this poll plus the kernel outcome this attempt would get. -/
structure RecvStep where
  reg : Reg
  recvResult : IOResult (Nat × Bool)

/-- Environment of one poll step of `send`: registration state plus the kernel
non-blocking send, as a function of the buffer handed to it. -/
structure SendStep where
  reg : Reg
  sendImpl : List Nat → IOResult Nat

/-- Environment of one poll step of `accept`: registration state, kernel
accept outcome, and the registration outcome for the accepted handle. -/
structure AcceptStep where
  reg : Reg
  acceptResult : IOResult (Nat × Nat)
  regResult : IOResult Unit

/-- `UnixSeqpacketConn::recv`: drive `poll_fn(|cx| self.poll_recv_priv(cx, buf))`
against a trace of step environments; `none` means still suspended when the
trace ends. -/
def recv (steps : List RecvStep) : Option (IOResult Nat) :=
  match steps with
  | [] => none
  | s :: rest =>
      match (poll_recv_priv s.reg s.recvResult).1 with
      | .ready r => some r
      | .pending => recv rest

/-- `UnixSeqpacketConn::send`: drive `poll_fn(|cx| self.poll_send_priv(cx, buf))`
against a trace of step environments; every attempt passes the same `buf`. -/
def send (buf : List Nat) (steps : List SendStep) : Option (IOResult Nat) :=
  match steps with
  | [] => none
  | s :: rest =>
      match (poll_send_priv s.reg buf s.sendImpl).1 with
      | .ready r => some r
      | .pending => send buf rest

/-- `UnixSeqpacketListener::accept`: drive `poll_fn(|cx| self.poll_accept(cx))`
against a trace of step environments. -/
def accept (steps : List AcceptStep) :
    Option (IOResult (UnixSeqpacketConn × Nat)) :=
  match steps with
  | [] => none
  | s :: rest =>
      match (poll_accept s.reg s.acceptResult s.regResult).1 with
      | .ready r => some r
      | .pending => accept rest

/-- The `poll_fn(|cx| conn.io.poll_write_ready(cx)).await` of `connect`:
suspend until the reactor first reports write readiness (the trace lists the
readiness the reactor reports at each poll). -/
def awaitWriteReady (readiness : List Bool) : Option Unit :=
  match readiness with
  | [] => none
  | b :: rest => if b then some () else awaitWriteReady rest

/-- `UnixSeqpacketConn::connect`: create the non-blocking handle already
attempting connection (`connectResult` is that call's outcome), register it
(`regResult`), then await write readiness before returning the connection. -/
def connect (connectResult : IOResult Nat) (regResult : IOResult Unit)
    (readiness : List Bool) : Option (IOResult UnixSeqpacketConn) :=
  match connectResult with
  | .error e => some (.error e)
  | .ok nbConn =>
      match from_nonblocking nbConn regResult with
      | .error e => some (.error e)
      | .ok conn =>
          match awaitWriteReady readiness with
          | none => none
          | some _ => some (.ok conn)

/-- `UnixSeqpacketConn::connect_addr`: same shape as `connect`, with the
underlying `connect_unix_addr` outcome as input. -/
def connect_addr (connectResult : IOResult Nat) (regResult : IOResult Unit)
    (readiness : List Bool) : Option (IOResult UnixSeqpacketConn) :=
  match connectResult with
  | .error e => some (.error e)
  | .ok nbConn =>
      match from_nonblocking nbConn regResult with
      | .error e => some (.error e)
      | .ok conn =>
          match awaitWriteReady readiness with
          | none => none
          | some _ => some (.ok conn)

/-- `UnixSeqpacketConn::connect_from_addr`: same shape as `connect`, with the
underlying `connect_from_to_unix_addr` outcome (local bind followed by
connect) as input. -/
def connect_from_addr (connectResult : IOResult Nat) (regResult : IOResult Unit)
    (readiness : List Bool) : Option (IOResult UnixSeqpacketConn) :=
  match connectResult with
  | .error e => some (.error e)
  | .ok nbConn =>
      match from_nonblocking nbConn regResult with
      | .error e => some (.error e)
      | .ok conn =>
          match awaitWriteReady readiness with
          | some _ => some (.ok conn)
          | none => none

/-- `UnixSeqpacketConn::pair`: create two already-connected non-blocking
handles (`pairResult`), register each; no readiness wait anywhere — the
function is not async in the source and consumes no readiness trace. -/
def pair (pairResult : IOResult (Nat × Nat)) (regA regB : IOResult Unit) :
    IOResult (UnixSeqpacketConn × UnixSeqpacketConn) :=
  match pairResult with
  | .error e => .error e
  | .ok (a, b) =>
      match from_nonblocking a regA with
      | .error e => .error e
      | .ok ca =>
          match from_nonblocking b regB with
          | .error e => .error e
          | .ok cb => .ok (ca, cb)

/-- Shutdown direction (`std::net::Shutdown`). -/
inductive ShutdownHow where
  | read
  | write
  | both
deriving DecidableEq, Repr

/-- `UnixSeqpacketConn::shutdown`: direct delegation to the non-blocking
handle's shutdown (`shutdownImpl`); not async, no readiness consulted. -/
def shutdown (how : ShutdownHow) (shutdownImpl : ShutdownHow → IOResult Unit) :
    IOResult Unit :=
  shutdownImpl how

/-- `UnixSeqpacketConn::local_addr`: direct delegation to `local_unix_addr`. -/
def local_addr (localAddrImpl : IOResult Nat) : IOResult Nat :=
  localAddrImpl

/-- `UnixSeqpacketConn::peer_addr`: direct delegation to `peer_unix_addr`. -/
def peer_addr (peerAddrImpl : IOResult Nat) : IOResult Nat :=
  peerAddrImpl

/-- Peer credentials snapshot ({pid, uid, gid}). -/
structure ConnCredentials where
  pid : Nat
  uid : Nat
  gid : Nat
deriving DecidableEq, Repr

/-- `UnixSeqpacketConn::initial_peer_credentials`: direct delegation. -/
def initial_peer_credentials (credsImpl : IOResult ConnCredentials) :
    IOResult ConnCredentials :=
  credsImpl

/-- `UnixSeqpacketConn::initial_peer_selinux_context`: direct delegation,
passing the caller's buffer (modelled by its length) through. -/
def initial_peer_selinux_context (bufLen : Nat)
    (ctxImpl : Nat → IOResult Nat) : IOResult Nat :=
  ctxImpl bufLen

/-! Branch equations for the poll functions, read off the source's match arms. -/

theorem poll_recv_priv_notReady (rw : Bool) (res : IOResult (Nat × Bool)) :
    poll_recv_priv ⟨false, rw⟩ res = (.pending, ⟨false, rw⟩) :=
  rfl

theorem poll_recv_priv_wb (rw : Bool) (e : IOError)
    (hk : e.kind = .wouldBlock) :
    poll_recv_priv ⟨true, rw⟩ (.error e) = (.pending, ⟨false, rw⟩) := by
  simp [poll_recv_priv, Reg.clearRead, hk]

theorem poll_recv_priv_err (rw : Bool) (e : IOError)
    (hk : ¬ e.kind = .wouldBlock) :
    poll_recv_priv ⟨true, rw⟩ (.error e) = (.ready (.error e), ⟨true, rw⟩) := by
  simp [poll_recv_priv, hk]

theorem poll_recv_priv_ok (rw : Bool) (n : Nat) (t : Bool) :
    poll_recv_priv ⟨true, rw⟩ (.ok (n, t)) = (.ready (.ok n), ⟨true, rw⟩) :=
  rfl

theorem poll_send_priv_notReady (rr : Bool) (buf : List Nat)
    (f : List Nat → IOResult Nat) :
    poll_send_priv ⟨rr, false⟩ buf f = (.pending, ⟨rr, false⟩) :=
  rfl

theorem poll_send_priv_wb (rr : Bool) (buf : List Nat)
    (f : List Nat → IOResult Nat) (e : IOError)
    (hf : f buf = .error e) (hk : e.kind = .wouldBlock) :
    poll_send_priv ⟨rr, true⟩ buf f = (.pending, ⟨rr, false⟩) := by
  simp [poll_send_priv, Reg.clearWrite, hf, hk]

theorem poll_send_priv_err (rr : Bool) (buf : List Nat)
    (f : List Nat → IOResult Nat) (e : IOError)
    (hf : f buf = .error e) (hk : ¬ e.kind = .wouldBlock) :
    poll_send_priv ⟨rr, true⟩ buf f = (.ready (.error e), ⟨rr, true⟩) := by
  simp [poll_send_priv, hf, hk]

theorem poll_send_priv_ok (rr : Bool) (buf : List Nat)
    (f : List Nat → IOResult Nat) (n : Nat) (hf : f buf = .ok n) :
    poll_send_priv ⟨rr, true⟩ buf f = (.ready (.ok n), ⟨rr, true⟩) := by
  simp [poll_send_priv, hf]

theorem poll_accept_nb_notReady (rw : Bool) (res : IOResult (Nat × Nat)) :
    poll_accept_nonblocking ⟨false, rw⟩ res = (.pending, ⟨false, rw⟩) :=
  rfl

theorem poll_accept_nb_wb (rw : Bool) (e : IOError)
    (hk : e.kind = .wouldBlock) :
    poll_accept_nonblocking ⟨true, rw⟩ (.error e) = (.pending, ⟨false, rw⟩) := by
  simp [poll_accept_nonblocking, Reg.clearRead, hk]

theorem poll_accept_nb_err (rw : Bool) (e : IOError)
    (hk : ¬ e.kind = .wouldBlock) :
    poll_accept_nonblocking ⟨true, rw⟩ (.error e)
      = (.ready (.error e), ⟨true, rw⟩) := by
  simp [poll_accept_nonblocking, hk]

theorem poll_accept_nb_ok (rw : Bool) (sock addr : Nat) :
    poll_accept_nonblocking ⟨true, rw⟩ (.ok (sock, addr))
      = (.ready (.ok (sock, addr)), ⟨true, rw⟩) :=
  rfl

/-! Loop-level facts: an error surfaced by a driven operation never has the
would-block kind, because the would-block branch of every poll function goes
to `pending` instead of `ready`. -/

theorem recv_not_wouldblock (steps : List RecvStep) (e : IOError)
    (h : recv steps = some (.error e)) : e.kind ≠ .wouldBlock := by
  induction steps with
  | nil => simp [recv] at h
  | cons s rest ih =>
    rcases s with ⟨⟨rr, rw⟩, res⟩
    cases rr with
    | false =>
      simp only [recv, poll_recv_priv] at h
      exact ih h
    | true =>
      rcases res with e2 | ⟨n, t⟩
      · by_cases hk : e2.kind = ErrorKind.wouldBlock
        · simp [recv, poll_recv_priv, hk] at h
          exact ih h
        · simp [recv, poll_recv_priv, hk] at h
          exact h ▸ hk
      · simp [recv, poll_recv_priv] at h

theorem send_not_wouldblock (buf : List Nat) (steps : List SendStep)
    (e : IOError) (h : send buf steps = some (.error e)) :
    e.kind ≠ .wouldBlock := by
  induction steps with
  | nil => simp [send] at h
  | cons s rest ih =>
    rcases s with ⟨⟨rr, rw⟩, f⟩
    cases rw with
    | false =>
      simp only [send, poll_send_priv] at h
      exact ih h
    | true =>
      rcases hf : f buf with e2 | n
      · by_cases hk : e2.kind = ErrorKind.wouldBlock
        · simp [send, poll_send_priv, hf, hk] at h
          exact ih h
        · simp [send, poll_send_priv, hf, hk] at h
          exact h ▸ hk
      · simp [send, poll_send_priv, hf] at h

theorem accept_not_wouldblock (steps : List AcceptStep) (e : IOError)
    (hreg : ∀ s ∈ steps, ∀ e2, s.regResult = .error e2 →
      e2.kind ≠ ErrorKind.wouldBlock)
    (h : accept steps = some (.error e)) : e.kind ≠ .wouldBlock := by
  induction steps with
  | nil => simp [accept] at h
  | cons s rest ih =>
    have hrest : ∀ s2 ∈ rest, ∀ e2, s2.regResult = .error e2 →
        e2.kind ≠ ErrorKind.wouldBlock :=
      fun s2 hs2 => hreg s2 (List.mem_cons_of_mem _ hs2)
    rcases s with ⟨⟨rr, rw⟩, res, ar⟩
    cases rr with
    | false =>
      simp only [accept, poll_accept, poll_accept_nonblocking] at h
      exact ih hrest h
    | true =>
      rcases res with e2 | ⟨sock, addr⟩
      · by_cases hk : e2.kind = ErrorKind.wouldBlock
        · simp [accept, poll_accept, poll_accept_nonblocking, hk] at h
          exact ih hrest h
        · simp [accept, poll_accept, poll_accept_nonblocking, hk] at h
          exact h ▸ hk
      · rcases ar with e3 | u
        · simp [accept, poll_accept, poll_accept_nonblocking,
            from_nonblocking] at h
          have h3 := hreg ⟨⟨true, rw⟩, .ok (sock, addr), .error e3⟩
            (List.mem_cons_self _ _) e3 rfl
          exact h ▸ h3
        · simp [accept, poll_accept, poll_accept_nonblocking,
            from_nonblocking] at h

/-- C1: no call to send, recv, or accept ever surfaces a would-block error to
the caller: whatever the kernel outcomes along the trace, the driven loop
either completes with a success or with a non-would-block error; would-block
from the non-blocking operation always takes the clear-readiness-and-pend
branch.  For accept, registration errors of the accepted handle (a distinct
error source, covered by C10) are assumed not to carry the would-block kind,
since they do not come from the non-blocking accept operation. -/
theorem no_wouldblock_escapes (stepsR : List RecvStep) (buf : List Nat)
    (stepsS : List SendStep) (stepsA : List AcceptStep) (e : IOError)
    (hreg : ∀ s ∈ stepsA, ∀ e2, s.regResult = .error e2 →
      e2.kind ≠ ErrorKind.wouldBlock)
    (he : e.kind = .wouldBlock) :
    recv stepsR ≠ some (.error e) ∧
    send buf stepsS ≠ some (.error e) ∧
    accept stepsA ≠ some (.error e) :=
  ⟨fun h => recv_not_wouldblock stepsR e h he,
   fun h => send_not_wouldblock buf stepsS e h he,
   fun h => accept_not_wouldblock stepsA e hreg h he⟩

/-- Witness for C1 on a concrete trace where each operation first hits
would-block and then completes. -/
theorem no_wouldblock_escapes_witness :
    recv [⟨⟨true, true⟩, .error ⟨.wouldBlock, 0⟩⟩,
          ⟨⟨true, true⟩, .ok (5, false)⟩] ≠ some (.error ⟨.wouldBlock, 7⟩) ∧
    send [1, 2] [⟨⟨true, true⟩, fun _ => .error ⟨.wouldBlock, 0⟩⟩,
          ⟨⟨true, true⟩, fun b => .ok b.length⟩]
      ≠ some (.error ⟨.wouldBlock, 7⟩) ∧
    accept [⟨⟨true, true⟩, .error ⟨.wouldBlock, 0⟩, .ok ()⟩,
          ⟨⟨true, true⟩, .ok (4, 9), .ok ()⟩]
      ≠ some (.error ⟨.wouldBlock, 7⟩) :=
  no_wouldblock_escapes _ _ _ _ _
    (by
      intro s hs e2 hse
      simp only [List.mem_cons, List.not_mem_nil, or_false] at hs
      rcases hs with rfl | rfl <;> simp at hse)
    rfl

/-- C2: in the would-block branch of each of recv, send, and accept, the poll
returns pending with the readiness flag of that direction (read for recv and
accept, write for send) cleared in the registration it hands back — the clear
happens as part of producing the pending, i.e. before the suspension — while
the other direction's flag is untouched; and the driven loop, once resumed,
simply polls the same attempt again (the loop equations: the suspended call
continues as the same retry loop on the remaining trace). -/
theorem wouldblock_clears_readiness_and_retries (rr rw : Bool) (e : IOError)
    (he : e.kind = .wouldBlock) (buf : List Nat)
    (f : List Nat → IOResult Nat) (hf : f buf = .error e)
    (restR : List RecvStep) (restS : List SendStep) (restA : List AcceptStep)
    (ar : IOResult Unit) :
    poll_recv_priv ⟨true, rw⟩ (.error e) = (.pending, ⟨false, rw⟩) ∧
    poll_send_priv ⟨rr, true⟩ buf f = (.pending, ⟨rr, false⟩) ∧
    poll_accept_nonblocking ⟨true, rw⟩ (.error e) = (.pending, ⟨false, rw⟩) ∧
    recv (⟨⟨true, rw⟩, .error e⟩ :: restR) = recv restR ∧
    send buf (⟨⟨rr, true⟩, f⟩ :: restS) = send buf restS ∧
    accept (⟨⟨true, rw⟩, .error e, ar⟩ :: restA) = accept restA := by
  refine ⟨poll_recv_priv_wb rw e he, poll_send_priv_wb rr buf f e hf he,
    poll_accept_nb_wb rw e he, ?_, ?_, ?_⟩
  · simp [recv, poll_recv_priv, he]
  · simp [send, poll_send_priv, hf, he]
  · simp [accept, poll_accept, poll_accept_nonblocking, he]

/-- Witness for C2 on a concrete would-block error and concrete trace
remainders. -/
theorem wouldblock_clears_readiness_and_retries_witness :
    poll_recv_priv ⟨true, true⟩ (.error ⟨.wouldBlock, 3⟩)
      = (.pending, ⟨false, true⟩) ∧
    poll_send_priv ⟨true, true⟩ [9] (fun _ => .error ⟨.wouldBlock, 3⟩)
      = (.pending, ⟨true, false⟩) ∧
    poll_accept_nonblocking ⟨true, true⟩ (.error ⟨.wouldBlock, 3⟩)
      = (.pending, ⟨false, true⟩) ∧
    recv (⟨⟨true, true⟩, .error ⟨.wouldBlock, 3⟩⟩ ::
        [⟨⟨true, true⟩, .ok (1, false)⟩])
      = recv [⟨⟨true, true⟩, .ok (1, false)⟩] ∧
    send [9] (⟨⟨true, true⟩, fun _ => .error ⟨.wouldBlock, 3⟩⟩ ::
        [⟨⟨true, true⟩, fun b => .ok b.length⟩])
      = send [9] [⟨⟨true, true⟩, fun b => .ok b.length⟩] ∧
    accept (⟨⟨true, true⟩, .error ⟨.wouldBlock, 3⟩, .ok ()⟩ :: [])
      = accept [] :=
  wouldblock_clears_readiness_and_retries true true ⟨.wouldBlock, 3⟩ rfl
    [9] (fun _ => .error ⟨.wouldBlock, 3⟩) rfl
    [⟨⟨true, true⟩, .ok (1, false)⟩]
    [⟨⟨true, true⟩, fun b => .ok b.length⟩] [] (.ok ())

/-- C3: a successful kernel recv is surfaced as a successful result carrying
the reported byte count regardless of the truncation flag; in particular a
truncated delivery (flag set) is a success with the truncated length, never an
error, both at a single poll and for the driven recv call. -/
theorem recv_truncation_is_success (rw : Bool) (n : Nat) (t : Bool)
    (rest : List RecvStep) :
    (poll_recv_priv ⟨true, rw⟩ (.ok (n, t))).1 = .ready (.ok n) ∧
    recv (⟨⟨true, rw⟩, .ok (n, t)⟩ :: rest) = some (.ok n) := by
  refine ⟨rfl, ?_⟩
  simp [recv, poll_recv_priv]

/-- The outcome of one send poll depends on the kernel send only through its
response to the buffer actually passed, namely the caller's buffer. -/
theorem poll_send_priv_congr (reg : Reg) (buf : List Nat)
    (f g : List Nat → IOResult Nat) (h : f buf = g buf) :
    poll_send_priv reg buf f = poll_send_priv reg buf g := by
  simp [poll_send_priv, h]

/-- C4: every attempt in the retry loop of one send call passes the original,
complete buffer to the kernel send: the whole driven send is invariant under
replacing each step's kernel send by any function agreeing with it on `buf`
alone (so no attempt ever consults the kernel send on a partial remainder or
any other buffer). -/
theorem send_retries_same_buffer (buf : List Nat)
    (steps steps2 : List SendStep)
    (h : List.Forall₂ (fun s s2 : SendStep =>
      s.reg = s2.reg ∧ s.sendImpl buf = s2.sendImpl buf) steps steps2) :
    send buf steps = send buf steps2 := by
  induction h with
  | nil => rfl
  | @cons a b l1 l2 hs hrest ih =>
    have hp : poll_send_priv a.reg buf a.sendImpl
        = poll_send_priv b.reg buf b.sendImpl := by
      rw [hs.1]
      exact poll_send_priv_congr _ _ _ _ hs.2
    simp only [send, hp, ih]

/-- Witness for C4: a two-step trace (would-block, then success) where the
second environment's kernel send is replaced by a function that agrees with
it only on the original buffer `[1, 2]` and errors on every other buffer. -/
theorem send_retries_same_buffer_witness :
    send [1, 2] [⟨⟨true, true⟩, fun _ => .error ⟨.wouldBlock, 0⟩⟩,
        ⟨⟨true, true⟩, fun b => .ok b.length⟩]
      = send [1, 2] [⟨⟨true, true⟩, fun _ => .error ⟨.wouldBlock, 0⟩⟩,
        ⟨⟨true, true⟩, fun b =>
          if b = [1, 2] then .ok 2 else .error ⟨.other, 0⟩⟩] :=
  send_retries_same_buffer [1, 2] _ _
    (List.Forall₂.cons ⟨rfl, rfl⟩ (List.Forall₂.cons ⟨rfl, rfl⟩ .nil))

/-- `awaitWriteReady` resolves exactly when the trace reports writability. -/
theorem awaitWriteReady_eq (readiness : List Bool) :
    awaitWriteReady readiness
      = if true ∈ readiness then some () else none := by
  induction readiness with
  | nil => rfl
  | cons b rest ih =>
    cases b
    · simp [awaitWriteReady, ih]
    · simp [awaitWriteReady]

/-- C5: the three connect entry points create the handle already attempting
connection and fail immediately with the underlying connect error whenever
that creation reports a definite error; on a successful creation and
registration they return the connection exactly once the reactor reports
write readiness, and remain suspended (`none`) while it never does. -/
theorem connect_fails_or_waits_for_writability (e : IOError)
    (regResult : IOResult Unit) (nbConn : Nat) (readiness : List Bool) :
    connect (.error e) regResult readiness = some (.error e) ∧
    connect_addr (.error e) regResult readiness = some (.error e) ∧
    connect_from_addr (.error e) regResult readiness = some (.error e) ∧
    connect (.ok nbConn) (.ok ()) readiness
      = (if true ∈ readiness then some (.ok ⟨nbConn⟩) else none) ∧
    connect_addr (.ok nbConn) (.ok ()) readiness
      = (if true ∈ readiness then some (.ok ⟨nbConn⟩) else none) ∧
    connect_from_addr (.ok nbConn) (.ok ()) readiness
      = (if true ∈ readiness then some (.ok ⟨nbConn⟩) else none) := by
  refine ⟨rfl, rfl, rfl, ?_, ?_, ?_⟩ <;>
    by_cases hm : true ∈ readiness <;>
    simp [connect, connect_addr, connect_from_addr, from_nonblocking,
      awaitWriteReady_eq, hm]

/-- C6: a terminal error (any kind other than would-block) observed by the
non-blocking attempt of recv, send, or accept is returned unchanged — same
kind, same payload — as the operation's failure, and the loop performs no
further attempt: the result does not depend on the remainder of the trace. -/
theorem terminal_error_propagated_no_retry (rw ws : Bool) (e : IOError)
    (he : ¬ e.kind = ErrorKind.wouldBlock) (buf : List Nat)
    (f : List Nat → IOResult Nat) (hf : f buf = .error e)
    (restR : List RecvStep) (restS : List SendStep) (restA : List AcceptStep)
    (ar : IOResult Unit) :
    recv (⟨⟨true, rw⟩, .error e⟩ :: restR) = some (.error e) ∧
    send buf (⟨⟨ws, true⟩, f⟩ :: restS) = some (.error e) ∧
    accept (⟨⟨true, rw⟩, .error e, ar⟩ :: restA) = some (.error e) := by
  refine ⟨?_, ?_, ?_⟩
  · simp [recv, poll_recv_priv, he]
  · simp [send, poll_send_priv, hf, he]
  · simp [accept, poll_accept, poll_accept_nonblocking, he]

/-- Witness for C6: a connection-refused error with payload 3 is surfaced as
is by each operation, with nonempty trace remainders that are ignored. -/
theorem terminal_error_propagated_no_retry_witness :
    recv (⟨⟨true, true⟩, .error ⟨.connectionRefused, 3⟩⟩ ::
        [⟨⟨true, true⟩, .ok (1, false)⟩])
      = some (.error ⟨.connectionRefused, 3⟩) ∧
    send [4] (⟨⟨true, true⟩, fun _ => .error ⟨.connectionRefused, 3⟩⟩ ::
        [⟨⟨true, true⟩, fun b => .ok b.length⟩])
      = some (.error ⟨.connectionRefused, 3⟩) ∧
    accept (⟨⟨true, true⟩, .error ⟨.connectionRefused, 3⟩, .ok ()⟩ ::
        [⟨⟨true, true⟩, .ok (8, 9), .ok ()⟩])
      = some (.error ⟨.connectionRefused, 3⟩) :=
  terminal_error_propagated_no_retry true true ⟨.connectionRefused, 3⟩
    (by decide) [4] (fun _ => .error ⟨.connectionRefused, 3⟩) rfl
    [⟨⟨true, true⟩, .ok (1, false)⟩]
    [⟨⟨true, true⟩, fun b => .ok b.length⟩]
    [⟨⟨true, true⟩, .ok (8, 9), .ok ()⟩] (.ok ())

/-- A recv poll suspends exactly when readiness is absent or the kernel
attempt reports would-block. -/
theorem poll_recv_priv_pending_iff (reg : Reg) (res : IOResult (Nat × Bool)) :
    (poll_recv_priv reg res).1 = .pending ↔
      reg.readReady = false ∨
        ∃ e, res = .error e ∧ e.kind = ErrorKind.wouldBlock := by
  rcases reg with ⟨rr, rw⟩
  cases rr
  · simp [poll_recv_priv]
  · rcases res with e | ⟨n, t⟩
    · by_cases hk : e.kind = ErrorKind.wouldBlock <;>
        simp [poll_recv_priv, hk]
    · simp [poll_recv_priv]

/-- A send poll suspends exactly when readiness is absent or the kernel
attempt on the caller's buffer reports would-block. -/
theorem poll_send_priv_pending_iff (reg : Reg) (buf : List Nat)
    (f : List Nat → IOResult Nat) :
    (poll_send_priv reg buf f).1 = .pending ↔
      reg.writeReady = false ∨
        ∃ e, f buf = .error e ∧ e.kind = ErrorKind.wouldBlock := by
  rcases reg with ⟨rr, rw⟩
  cases rw
  · simp [poll_send_priv]
  · rcases hf : f buf with e | n
    · by_cases hk : e.kind = ErrorKind.wouldBlock <;>
        simp [poll_send_priv, hf, hk]
    · simp [poll_send_priv, hf]

/-- An accept poll suspends exactly when readiness is absent or the kernel
accept reports would-block; wrapping the accepted handle never suspends. -/
theorem poll_accept_pending_iff (reg : Reg) (res : IOResult (Nat × Nat))
    (ar : IOResult Unit) :
    (poll_accept reg res ar).1 = .pending ↔
      reg.readReady = false ∨
        ∃ e, res = .error e ∧ e.kind = ErrorKind.wouldBlock := by
  rcases reg with ⟨rr, rw⟩
  cases rr
  · simp [poll_accept, poll_accept_nonblocking]
  · rcases res with e | ⟨sock, addr⟩
    · by_cases hk : e.kind = ErrorKind.wouldBlock <;>
        simp [poll_accept, poll_accept_nonblocking, hk]
    · rcases ar with e3 | u <;>
        simp [poll_accept, poll_accept_nonblocking, from_nonblocking]

/-- A connect call is suspended exactly while, after a successful handle
creation and registration, the reactor has not yet reported writability. -/
theorem connect_none_iff (cr : IOResult Nat) (rr : IOResult Unit)
    (rd : List Bool) :
    connect cr rr rd = none ↔
      (∃ nb, cr = .ok nb) ∧ rr = .ok () ∧ true ∉ rd := by
  rcases cr with e | nb
  · simp [connect]
  · rcases rr with e2 | u
    · simp [connect, from_nonblocking]
    · cases u
      by_cases hm : true ∈ rd <;>
        simp [connect, from_nonblocking, awaitWriteReady_eq, hm]

/-- C7: shutdown, local_addr, peer_addr, initial_peer_credentials and the
SELinux security-label query are plain synchronous delegations — for every
environment they complete immediately with the underlying result, consulting
no readiness — while the poll-driven operations suspend exactly in the
missing-readiness / would-block branches of recv, send, accept, and connect's
wait for writability. -/
theorem only_wouldblock_branches_suspend :
    (∀ (how : ShutdownHow) (impl : ShutdownHow → IOResult Unit),
      shutdown how impl = impl how) ∧
    (∀ r : IOResult Nat, local_addr r = r) ∧
    (∀ r : IOResult Nat, peer_addr r = r) ∧
    (∀ r : IOResult ConnCredentials, initial_peer_credentials r = r) ∧
    (∀ (n : Nat) (f : Nat → IOResult Nat),
      initial_peer_selinux_context n f = f n) ∧
    (∀ (reg : Reg) (res : IOResult (Nat × Bool)),
      (poll_recv_priv reg res).1 = .pending ↔
        reg.readReady = false ∨
          ∃ e, res = .error e ∧ e.kind = ErrorKind.wouldBlock) ∧
    (∀ (reg : Reg) (buf : List Nat) (f : List Nat → IOResult Nat),
      (poll_send_priv reg buf f).1 = .pending ↔
        reg.writeReady = false ∨
          ∃ e, f buf = .error e ∧ e.kind = ErrorKind.wouldBlock) ∧
    (∀ (reg : Reg) (res : IOResult (Nat × Nat)) (ar : IOResult Unit),
      (poll_accept reg res ar).1 = .pending ↔
        reg.readReady = false ∨
          ∃ e, res = .error e ∧ e.kind = ErrorKind.wouldBlock) ∧
    (∀ (cr : IOResult Nat) (rr : IOResult Unit) (rd : List Bool),
      connect cr rr rd = none ↔
        (∃ nb, cr = .ok nb) ∧ rr = .ok () ∧ true ∉ rd) :=
  ⟨fun _ _ => rfl, fun _ => rfl, fun _ => rfl, fun _ => rfl, fun _ _ => rfl,
   poll_recv_priv_pending_iff, poll_send_priv_pending_iff,
   poll_accept_pending_iff, connect_none_iff⟩

/-- C8: the connection wraps exactly one readiness registration (the single
`PollEvented` field, one `Reg` in the model), and a read-side wait and a
write-side wait on that one registration are independent and safe: a recv poll
only reads and clears the read flag, a send poll only the write flag, each
poll's outcome is unchanged by the other direction's poll having run first,
and the two polls commute on the registration state.  (Two concurrent waits in
the *same* direction are outside the design and are not modelled.) -/
theorem read_and_write_waits_independent (reg : Reg)
    (res : IOResult (Nat × Bool)) (buf : List Nat)
    (f : List Nat → IOResult Nat) :
    ((poll_recv_priv reg res).2).writeReady = reg.writeReady ∧
    ((poll_send_priv reg buf f).2).readReady = reg.readReady ∧
    (poll_recv_priv (poll_send_priv reg buf f).2 res).1
      = (poll_recv_priv reg res).1 ∧
    (poll_send_priv (poll_recv_priv reg res).2 buf f).1
      = (poll_send_priv reg buf f).1 ∧
    (poll_send_priv (poll_recv_priv reg res).2 buf f).2
      = (poll_recv_priv (poll_send_priv reg buf f).2 res).2 := by
  rcases reg with ⟨rr, rw⟩
  rcases res with e | ⟨n, t⟩
  · rcases hf : f buf with e2 | m
    · by_cases hk : e.kind = ErrorKind.wouldBlock <;>
        by_cases hk2 : e2.kind = ErrorKind.wouldBlock <;>
        cases rr <;> cases rw <;>
        simp [poll_recv_priv, poll_send_priv, Reg.clearRead, Reg.clearWrite,
          hf, hk, hk2]
    · by_cases hk : e.kind = ErrorKind.wouldBlock <;>
        cases rr <;> cases rw <;>
        simp [poll_recv_priv, poll_send_priv, Reg.clearRead, Reg.clearWrite,
          hf, hk]
  · rcases hf : f buf with e2 | m
    · by_cases hk2 : e2.kind = ErrorKind.wouldBlock <;>
        cases rr <;> cases rw <;>
        simp [poll_recv_priv, poll_send_priv, Reg.clearRead, Reg.clearWrite,
          hf, hk2]
    · cases rr <;> cases rw <;>
        simp [poll_recv_priv, poll_send_priv, Reg.clearRead, Reg.clearWrite,
          hf]

/-- C9: pair yields two already-connected, already-registered connections with
no connect handshake and no readiness wait — the function consumes no
readiness trace at all (it is not async in the source), and on success both
connections are returned ready for use; any underlying failure propagates. -/
theorem pair_immediately_connected (x y : Nat) (e : IOError)
    (ra rb : IOResult Unit) :
    pair (.ok (x, y)) (.ok ()) (.ok ()) = .ok (⟨x⟩, ⟨y⟩) ∧
    pair (.error e) ra rb = .error e ∧
    pair (.ok (x, y)) (.error e) rb = .error e ∧
    pair (.ok (x, y)) (.ok ()) (.error e) = .error e :=
  ⟨rfl, rfl, rfl, rfl⟩

/-- C10: when accept dequeues a connection but registering the accepted handle
fails, the accept resolves with that registration error: the handle is not
returned to the caller (the result carries no connection) and is not requeued
— the call's outcome ignores the rest of the trace, and the adapter keeps no
state that could resurface the handle in a later accept. -/
theorem accept_registration_failure_drops_connection (rw : Bool)
    (sock addr : Nat) (e : IOError) (rest : List AcceptStep) :
    poll_accept ⟨true, rw⟩ (.ok (sock, addr)) (.error e)
      = (.ready (.error e), ⟨true, rw⟩) ∧
    accept (⟨⟨true, rw⟩, .ok (sock, addr), .error e⟩ :: rest)
      = some (.error e) := by
  refine ⟨?_, ?_⟩
  · simp [poll_accept, poll_accept_nonblocking, from_nonblocking]
  · simp [accept, poll_accept, poll_accept_nonblocking, from_nonblocking]

end Uds
